import Mathlib

/-!
Verification of the FreelanceHub marketplace lifecycle engine.

The data model follows `models.py` and every operation is a direct
translation of the corresponding Flask route handler in `app.py`.
Each handler is modelled as a function `DB → Option (DB × String)`:
`none` stands for an aborted request (404 or an uncaught exception, in
which case the transaction is rolled back and no write persists), and
`some (s, msg)` stands for a completed request returning state `s`
together with the flash message / response tag.  The authenticated
user is threaded in as an explicit `uid` argument (spec §6,
`current_identity()`).  Statuses are the literal strings used by the
source.  Monetary amounts and the derived `avg_rating` column are
modelled with `Rat`; timestamps with `Nat`.
-/

namespace FreelanceHub

/-- `Job` row, `models.py` lines 64-88. -/
structure Job where
  id : Nat
  client_id : Nat
  title : String
  description : String
  budget : Rat
  category : String
  deadline : Nat
  status : String
  accepted_bid_id : Option Nat
deriving DecidableEq, Repr

/-- `Bid` row, `models.py` lines 91-105. -/
structure Bid where
  id : Nat
  job_id : Nat
  freelancer_id : Nat
  amount : Rat
  proposal : String
  delivery_days : Nat
  status : String
deriving DecidableEq, Repr

/-- `WorkSubmission` row, `models.py` lines 126-138 (`job_id` is unique). -/
structure WorkSubmission where
  job_id : Nat
  file_path : String
  description : String
  status : String
deriving DecidableEq, Repr

/-- `Payment` row, `models.py` lines 108-123.  `freelancer_id` is an
`Option` because `approve_work` stores `None` when the job has no
accepted bid (`app.py` line 502). -/
structure Payment where
  id : Nat
  job_id : Nat
  client_id : Nat
  freelancer_id : Option Nat
  amount : Rat
  status : String
  paid_at : Option Nat
deriving DecidableEq, Repr

/-- `Review` row, `models.py` lines 141-154. -/
structure Review where
  job_id : Nat
  client_id : Nat
  freelancer_id : Nat
  rating : Int
  comment : String
deriving DecidableEq, Repr

/-- `FreelancerProfile` row, `models.py` lines 46-61 (only the columns
the lifecycle engine touches). -/
structure FreelancerProfile where
  user_id : Nat
  avg_rating : Rat
  total_reviews : Nat
deriving DecidableEq, Repr

/-- The relational store.  The `next_*` counters model the
autoincrement primary keys. -/
structure DB where
  jobs : List Job
  bids : List Bid
  work_submissions : List WorkSubmission
  payments : List Payment
  reviews : List Review
  profiles : List FreelancerProfile
  next_job_id : Nat
  next_bid_id : Nat
  next_payment_id : Nat
deriving DecidableEq, Repr

/-- Fresh database, as produced by `db.create_all()` (`app.py` line 46). -/
def DB.init : DB := ⟨[], [], [], [], [], [], 1, 1, 1⟩

/-- `Job.query.get(jid)`. -/
def getJob (s : DB) (jid : Nat) : Option Job :=
  s.jobs.find? (fun j => j.id == jid)

/-- `Bid.query.get(i)`. -/
def getBid (s : DB) (i : Nat) : Option Bid :=
  s.bids.find? (fun b => b.id == i)

/-- `Bid.query.get(job.accepted_bid_id)` where the id column is nullable. -/
def getBidOpt (s : DB) (i : Option Nat) : Option Bid :=
  match i with
  | none => none
  | some i => getBid s i

/-- `Payment.query.get(pid)`. -/
def getPayment (s : DB) (pid : Nat) : Option Payment :=
  s.payments.find? (fun p => p.id == pid)

/-- `job.payment` (one-to-one relationship keyed by `job_id`). -/
def jobPayment (s : DB) (jid : Nat) : Option Payment :=
  s.payments.find? (fun p => p.job_id == jid)

/-- `job.work_submission` (one-to-one relationship keyed by `job_id`). -/
def jobWork (s : DB) (jid : Nat) : Option WorkSubmission :=
  s.work_submissions.find? (fun w => w.job_id == jid)

/-- `freelancer.freelancer_profile`. -/
def profileOf (s : DB) (uid : Nat) : Option FreelancerProfile :=
  s.profiles.find? (fun p => p.user_id == uid)

/-- `Review.query.filter_by(job_id=jid, client_id=uid).first()`. -/
def findReview (s : DB) (jid uid : Nat) : Option Review :=
  s.reviews.find? (fun r => r.job_id == jid && r.client_id == uid)

/-- `Config.ALLOWED_EXTENSIONS`, `config.py` line 27. -/
def allowedExtensions : List String :=
  ["pdf", "doc", "docx", "txt", "zip", "jpg", "jpeg", "png", "gif"]

/-- ASCII lowering of one character (`str.lower()` restricted to the
ASCII range, which is all the whitelist needs). -/
def lowerChar (c : Char) : Char :=
  if 65 ≤ c.toNat ∧ c.toNat ≤ 90 then Char.ofNat (c.toNat + 32) else c

/-- The segment after the last dot, i.e. `filename.rsplit('.', 1)[1]`
when a dot is present. -/
def lastDotSegment (cs : List Char) : List Char :=
  cs.foldl (fun acc c => if c = '.' then [] else acc ++ [c]) []

/-- `allowed_file`, `app.py` lines 71-73: the name contains a dot and
its extension (the part after the last dot), lowercased, is in the
whitelist.  Spelled over the character list of the string. -/
def allowed_file (filename : String) : Bool :=
  filename.data.contains '.' &&
    allowedExtensions.contains
      (String.mk ((lastDotSegment filename.data).map lowerChar))

/-- The stored filename `secure_filename(f"{job_id}_{timestamp}_{name}")`
(`app.py` line 441); the sanitiser is treated as the identity since the
blob store is an opaque collaborator (spec §1, §6). -/
def uploadName (jid now : Nat) (orig : String) : String :=
  toString jid ++ "_" ++ toString now ++ "_" ++ orig

/-- `post_job` POST handler, `app.py` lines 534-568.  The deadline is
pre-parsed into `Option Nat` (a `none` models a missing or unparsable
form field); `budget = 0.0` is falsy in `all([...])`. -/
def post_job (s : DB) (uid : Nat) (title description : String)
    (budget : Option Rat) (category : String) (deadline : Option Nat)
    (now : Nat) : Option (DB × String) :=
  match budget, deadline with
  | some b, some dl =>
    if title = "" || description = "" || b == 0 || category = "" then
      some (s, "All fields are required.")
    else if dl ≤ now then
      some (s, "Deadline must be in the future.")
    else
      some ({ s with
                jobs := s.jobs ++
                  [⟨s.next_job_id, uid, title, description, b, category,
                    dl, "open", none⟩],
                next_job_id := s.next_job_id + 1 },
            "Job posted successfully!")
  | _, _ => some (s, "All fields are required.")

/-- `place_bid` POST handler, `app.py` lines 347-371.  `amount = 0.0`
and `delivery_days = 0` are falsy in `all([...])`. -/
def place_bid (s : DB) (uid jid : Nat) (amount : Option Rat)
    (proposal : String) (delivery_days : Option Nat) :
    Option (DB × String) :=
  match getJob s jid with
  | none => none
  | some job =>
    if job.status != "open" then
      some (s, "This job is no longer open.")
    else
      match amount, delivery_days with
      | some a, some d =>
        if a == 0 || proposal = "" || d == 0 then
          some (s, "All fields are required.")
        else
          some ({ s with
                    bids := s.bids ++
                      [⟨s.next_bid_id, jid, uid, a, proposal, d, "pending"⟩],
                    next_bid_id := s.next_bid_id + 1 },
                "Bid placed successfully!")
      | _, _ => some (s, "All fields are required.")

/-- `accept_bid` POST handler, `app.py` lines 607-634.  All sibling
bids of the job are set to `rejected`, the target bid to `accepted`,
and the job moves to `in_progress` with `accepted_bid_id` recorded —
all inside the single commit at line 631.  (The success flash drops
the interpolated freelancer name, `User` rows being outside the
lifecycle core.) -/
def accept_bid (s : DB) (uid bid_id : Nat) : Option (DB × String) :=
  match getBid s bid_id with
  | none => none
  | some bid =>
    match getJob s bid.job_id with
    | none => none
    | some job =>
      if job.client_id != uid then
        some (s, "You do not have permission to accept this bid.")
      else if job.status != "open" then
        some (s, "This job is no longer open.")
      else
        some ({ s with
                  bids := s.bids.map (fun b =>
                    if b.job_id == job.id && b.id != bid_id then
                      { b with status := "rejected" }
                    else if b.id == bid_id then
                      { b with status := "accepted" }
                    else b),
                  jobs := s.jobs.map (fun j =>
                    if j.id == job.id then
                      { j with status := "in_progress",
                               accepted_bid_id := some bid_id }
                    else j) },
              "Bid accepted! Job status is now in progress.")

/-- `submit_work` POST handler, `app.py` lines 407-456.  `file` is the
uploaded file name (`none` when the field is absent; the empty string
when present but blank).  When a `WorkSubmission` row already exists
only `file_path` and `description` are overwritten — the code never
touches its `status` column. -/
def submit_work (s : DB) (uid jid : Nat) (description : String)
    (file : Option String) (now : Nat) : Option (DB × String) :=
  match getJob s jid with
  | none => none
  | some job =>
    if job.status != "in_progress" then
      some (s, "This job is not in progress.")
    else
      match getBidOpt s job.accepted_bid_id with
      | none => some (s, "You are not assigned to this job.")
      | some accepted_bid =>
        if accepted_bid.freelancer_id != uid then
          some (s, "You are not assigned to this job.")
        else
          match file with
          | none => some (s, "No file selected.")
          | some fname =>
            if fname = "" then
              some (s, "No file selected.")
            else if !(allowed_file fname) then
              some (s, "File type not allowed.")
            else
              let filename := uploadName jid now fname
              match jobWork s jid with
              | some _ =>
                some ({ s with
                          work_submissions := s.work_submissions.map (fun w =>
                            if w.job_id == jid then
                              { w with file_path := filename,
                                       description := description }
                            else w) },
                      "Work submitted successfully!")
              | none =>
                some ({ s with
                          work_submissions := s.work_submissions ++
                            [⟨jid, filename, description, "submitted"⟩] },
                      "Work submitted successfully!")

/-- `approve_work` POST handler, `app.py` lines 477-510. -/
def approve_work (s : DB) (uid jid : Nat) : Option (DB × String) :=
  match getJob s jid with
  | none => none
  | some job =>
    if job.client_id != uid then
      some (s, "You do not have permission to perform this action.")
    else
      match jobWork s jid with
      | none => some (s, "No work has been submitted for this job.")
      | some _ =>
        let ws := s.work_submissions.map (fun w =>
          if w.job_id == jid then { w with status := "approved" } else w)
        let js := s.jobs.map (fun j =>
          if j.id == jid then { j with status := "awaiting_payment" } else j)
        let accepted_bid := getBidOpt s job.accepted_bid_id
        match jobPayment s jid with
        | none =>
          let amount := match accepted_bid with
            | some b => b.amount
            | none => job.budget
          let fid := accepted_bid.map Bid.freelancer_id
          some ({ s with
                    work_submissions := ws, jobs := js,
                    payments := s.payments ++
                      [⟨s.next_payment_id, job.id, job.client_id, fid,
                        amount, "pending", none⟩],
                    next_payment_id := s.next_payment_id + 1 },
                "Work approved. Please complete payment to release funds to the freelancer.")
        | some _ =>
          some ({ s with
                    work_submissions := ws, jobs := js,
                    payments := s.payments.map (fun p =>
                      if p.job_id == jid then { p with status := "pending" }
                      else p) },
                "Work approved. Please complete payment to release funds to the freelancer.")

/-- `reject_work` POST handler, `app.py` lines 512-530.  Note that the
handler sets `job.status` back to `in_progress` unconditionally. -/
def reject_work (s : DB) (uid jid : Nat) : Option (DB × String) :=
  match getJob s jid with
  | none => none
  | some _job =>
    if _job.client_id != uid then
      some (s, "You do not have permission to perform this action.")
    else
      match jobWork s jid with
      | none => some (s, "No work has been submitted for this job.")
      | some _ =>
        some ({ s with
                  work_submissions := s.work_submissions.map (fun w =>
                    if w.job_id == jid then { w with status := "rejected" }
                    else w),
                  jobs := s.jobs.map (fun j =>
                    if j.id == jid then { j with status := "in_progress" }
                    else j) },
              "Work rejected. Freelancer notified to resubmit.")

/-- `payment_page` handler, `app.py` lines 636-669, covering both GET
(`isPost = false`, renders the page) and POST (creates the `Payment`
row if absent and redirects to the mock gateway).  A missing accepted
`Bid` row aborts the request (`accepted_bid` would be dereferenced). -/
def payment_page (s : DB) (uid jid : Nat) (isPost : Bool) :
    Option (DB × String) :=
  match getJob s jid with
  | none => none
  | some job =>
    if job.client_id != uid then
      some (s, "You do not have permission to pay for this job.")
    else
      match job.accepted_bid_id with
      | none => some (s, "This job does not have an accepted bid.")
      | some abid =>
        let payment := jobPayment s jid
        if (match payment with
            | some p => p.status == "paid" || p.status == "released"
            | none => false) then
          some (s, "Payment already processed for this job.")
        else
          match getBid s abid with
          | none => none
          | some accepted_bid =>
            if isPost then
              match payment with
              | none =>
                some ({ s with
                          payments := s.payments ++
                            [⟨s.next_payment_id, job.id, job.client_id,
                              some accepted_bid.freelancer_id,
                              accepted_bid.amount, "pending", none⟩],
                          next_payment_id := s.next_payment_id + 1 },
                      "redirect:mock_payment")
              | some _ => some (s, "redirect:mock_payment")
            else
              some (s, "render:payment")

/-- `mock_payment` POST handler, `app.py` lines 671-699.  There is no
guard on the current payment status nor on the job status: the payment
is unconditionally marked `paid` with a fresh `paid_at` and the job is
marked `completed`. -/
def mock_payment (s : DB) (uid pid : Nat) (payment_method : String)
    (now : Nat) : Option (DB × String) :=
  match getPayment s pid with
  | none => none
  | some payment =>
    if payment.client_id != uid then
      some (s, "You do not have permission to pay this.")
    else
      some ({ s with
                payments := s.payments.map (fun p =>
                  if p.id == pid then
                    { p with status := "paid", paid_at := some now }
                  else p),
                jobs := s.jobs.map (fun j =>
                  if j.id == payment.job_id then
                    { j with status := "completed" }
                  else j) },
            if payment_method == "upi" then "Payment successful via UPI!"
            else "Payment successful via Card!")

/-- `review_freelancer` POST handler, `app.py` lines 713-759.  The new
`Review` is added to the session at line 747 *before* the
`Review.query.filter_by(freelancer_id=...)` at line 751; the session
has the default `autoflush=True`, so executing that query first
flushes the pending row, and the returned list therefore already
contains the new review.  The aggregation at lines 752-754 then adds
`rating` once more and divides by `len(reviews) + 1`.  A missing
accepted bid or missing profile raises and rolls back (`none`).
The rating guard `not rating or rating < 1 or rating > 5` also
rejects `rating = 0` via falsiness, which `r < 1` subsumes. -/
def review_freelancer (s : DB) (uid jid : Nat) (rating : Option Int)
    (comment : String) : Option (DB × String) :=
  match getJob s jid with
  | none => none
  | some job =>
    if job.client_id != uid then
      some (s, "You do not have permission to review for this job.")
    else
      match jobPayment s jid with
      | none => some (s, "You can only review after payment is completed.")
      | some payment =>
        if payment.status != "paid" then
          some (s, "You can only review after payment is completed.")
        else if (findReview s jid uid).isSome then
          some (s, "You have already reviewed this job.")
        else
          match rating with
          | none => some (s, "Rating must be between 1 and 5.")
          | some r =>
            if r < 1 || 5 < r then
              some (s, "Rating must be between 1 and 5.")
            else
              match getBidOpt s job.accepted_bid_id with
              | none => none
              | some ab =>
                let review : Review := ⟨jid, uid, ab.freelancer_id, r, comment⟩
                let reviews := (s.reviews ++ [review]).filter
                  (fun rv => rv.freelancer_id == ab.freelancer_id)
                let total_rating : Int := (reviews.map Review.rating).sum + r
                match profileOf s ab.freelancer_id with
                | none => none
                | some _ =>
                  some ({ s with
                            reviews := s.reviews ++ [review],
                            profiles := s.profiles.map (fun p =>
                              if p.user_id == ab.freelancer_id then
                                { p with
                                    avg_rating := (total_rating : Rat) /
                                      ((reviews.length : Rat) + 1),
                                    total_reviews := reviews.length + 1 }
                              else p) },
                        "Review submitted successfully!")

/-- Lazy `FreelancerProfile` creation (`app.py` lines 152-155 at
registration and 204-207 on first profile view); the new row gets the
column defaults `avg_rating = 0`, `total_reviews = 0`. -/
def create_profile (s : DB) (uid : Nat) : DB :=
  if (profileOf s uid).isSome then s
  else { s with profiles := s.profiles ++ [⟨uid, 0, 0⟩] }

/-! ### Lookup facts -/

theorem getJob_mem {s : DB} {jid : Nat} {J : Job} (h : getJob s jid = some J) :
    J ∈ s.jobs :=
  List.mem_of_find?_eq_some h

theorem getJob_id {s : DB} {jid : Nat} {J : Job} (h : getJob s jid = some J) :
    J.id = jid := by
  have := List.find?_some h
  simpa using this

theorem getBid_mem {s : DB} {i : Nat} {B : Bid} (h : getBid s i = some B) :
    B ∈ s.bids :=
  List.mem_of_find?_eq_some h

theorem getBid_id {s : DB} {i : Nat} {B : Bid} (h : getBid s i = some B) :
    B.id = i := by
  have := List.find?_some h
  simpa using this

theorem getBidOpt_eq {s : DB} {i : Option Nat} {B : Bid}
    (h : getBidOpt s i = some B) : i = some B.id ∧ B ∈ s.bids := by
  match i with
  | none => simp [getBidOpt] at h
  | some x =>
    simp only [getBidOpt] at h
    exact ⟨by rw [getBid_id h], getBid_mem h⟩

theorem getPayment_mem {s : DB} {pid : Nat} {P : Payment}
    (h : getPayment s pid = some P) : P ∈ s.payments :=
  List.mem_of_find?_eq_some h

theorem getPayment_id {s : DB} {pid : Nat} {P : Payment}
    (h : getPayment s pid = some P) : P.id = pid := by
  have := List.find?_some h
  simpa using this

theorem jobPayment_mem {s : DB} {jid : Nat} {P : Payment}
    (h : jobPayment s jid = some P) : P ∈ s.payments :=
  List.mem_of_find?_eq_some h

theorem jobPayment_jid {s : DB} {jid : Nat} {P : Payment}
    (h : jobPayment s jid = some P) : P.job_id = jid := by
  have := List.find?_some h
  simpa using this

theorem jobWork_mem {s : DB} {jid : Nat} {W : WorkSubmission}
    (h : jobWork s jid = some W) : W ∈ s.work_submissions :=
  List.mem_of_find?_eq_some h

theorem jobWork_jid {s : DB} {jid : Nat} {W : WorkSubmission}
    (h : jobWork s jid = some W) : W.job_id = jid := by
  have := List.find?_some h
  simpa using this

/-! ### The reachable-state invariant -/

/-- The job statuses that the spec couples with a set `accepted_bid_id`. -/
abbrev activeStatus (st : String) : Prop :=
  st = "in_progress" ∨ st = "awaiting_payment" ∨ st = "completed"

/-- Inductive invariant of the lifecycle engine.  `acc_iff`,
`acc_unique` and `reviews_unique` are the claimed invariants; the
remaining fields are the bookkeeping needed to push them through the
transitions (fresh autoincrement ids, and the fact that work
submissions and payments only ever reference jobs that already hold an
accepted bid). -/
structure Inv (s : DB) : Prop where
  jobs_nodup : (s.jobs.map Job.id).Nodup
  jobs_lt : ∀ j ∈ s.jobs, j.id < s.next_job_id
  bids_nodup : (s.bids.map Bid.id).Nodup
  bids_lt : ∀ b ∈ s.bids, b.id < s.next_bid_id
  acc_iff : ∀ j ∈ s.jobs, (j.accepted_bid_id ≠ none ↔ activeStatus j.status)
  work_acc : ∀ w ∈ s.work_submissions, ∀ j ∈ s.jobs, j.id = w.job_id →
    j.accepted_bid_id ≠ none
  pay_acc : ∀ p ∈ s.payments, ∀ j ∈ s.jobs, j.id = p.job_id →
    j.accepted_bid_id ≠ none
  work_job_lt : ∀ w ∈ s.work_submissions, w.job_id < s.next_job_id
  pay_job_lt : ∀ p ∈ s.payments, p.job_id < s.next_job_id
  acc_unique : ∀ b1 ∈ s.bids, ∀ b2 ∈ s.bids, b1.job_id = b2.job_id →
    b1.status = "accepted" → b2.status = "accepted" → b1 = b2
  reviews_unique : List.Pairwise
    (fun r1 r2 => ¬(r1.job_id = r2.job_id ∧ r1.client_id = r2.client_id))
    s.reviews

theorem inv_init : Inv DB.init := by
  constructor <;> simp [DB.init]

theorem nodup_map_append_fresh {α : Type} {l : List α} {f : α → Nat} {x : α}
    {n : Nat} (h : (l.map f).Nodup) (hlt : ∀ a ∈ l, f a < n) (hx : f x = n) :
    ((l ++ [x]).map f).Nodup := by
  rw [List.map_append, List.nodup_append]
  refine ⟨h, by simp, ?_⟩
  intro a ha hb
  rw [List.mem_map] at ha
  obtain ⟨a0, ha0, rfl⟩ := ha
  simp only [List.map_cons, List.map_nil, List.mem_singleton] at hb
  have hl := hlt a0 ha0
  rw [hb, hx] at hl
  exact lt_irrefl n hl

theorem nodup_map_of_map_fix {α : Type} {l : List α} {f : α → Nat} {g : α → α}
    (hg : ∀ a, f (g a) = f a) (h : (l.map f).Nodup) :
    ((l.map g).map f).Nodup := by
  rw [List.map_map]
  have he : List.map (f ∘ g) l = List.map f l :=
    List.map_congr_left (fun a _ => hg a)
  rw [he]
  exact h

theorem post_job_inv {s s' : DB} {uid : Nat} {title description : String}
    {budget : Option Rat} {category : String} {deadline : Option Nat}
    {now : Nat} {m : String}
    (h : post_job s uid title description budget category deadline now
          = some (s', m))
    (hI : Inv s) : Inv s' := by
  unfold post_job at h
  split at h
  case h_2 => simp only [Option.some.injEq, Prod.mk.injEq] at h; exact h.1 ▸ hI
  case h_1 b dl =>
    split at h
    · simp only [Option.some.injEq, Prod.mk.injEq] at h; exact h.1 ▸ hI
    · split at h
      · simp only [Option.some.injEq, Prod.mk.injEq] at h; exact h.1 ▸ hI
      · simp only [Option.some.injEq, Prod.mk.injEq] at h
        obtain ⟨h1, -⟩ := h
        subst h1
        obtain ⟨jn, jlt, bn, blt, aiff, wacc, pacc, wlt, plt, au, ru⟩ := hI
        refine ⟨?_, ?_, bn, blt, ?_, ?_, ?_, ?_, ?_, au, ru⟩
        · exact nodup_map_append_fresh jn jlt rfl
        · intro j hj
          simp only [List.mem_append, List.mem_singleton] at hj
          rcases hj with hj | rfl
          · exact Nat.lt_succ_of_lt (jlt j hj)
          · exact Nat.lt_succ_self _
        · intro j hj
          simp only [List.mem_append, List.mem_singleton] at hj
          rcases hj with hj | rfl
          · exact aiff j hj
          · simp [activeStatus]
        · intro w hw j hj hid
          simp only [List.mem_append, List.mem_singleton] at hj
          rcases hj with hj | rfl
          · exact wacc w hw j hj hid
          · exact absurd (hid ▸ wlt w hw) (lt_irrefl _)
        · intro p hp j hj hid
          simp only [List.mem_append, List.mem_singleton] at hj
          rcases hj with hj | rfl
          · exact pacc p hp j hj hid
          · exact absurd (hid ▸ plt p hp) (lt_irrefl _)
        · intro w hw
          exact Nat.lt_succ_of_lt (wlt w hw)
        · intro p hp
          exact Nat.lt_succ_of_lt (plt p hp)

theorem place_bid_inv {s s' : DB} {uid jid : Nat} {amount : Option Rat}
    {proposal : String} {delivery_days : Option Nat} {m : String}
    (h : place_bid s uid jid amount proposal delivery_days = some (s', m))
    (hI : Inv s) : Inv s' := by
  unfold place_bid at h
  split at h
  · exact absurd h (by simp)
  case h_2 job hjob =>
    split at h
    · simp only [Option.some.injEq, Prod.mk.injEq] at h; exact h.1 ▸ hI
    · split at h
      case h_2 => simp only [Option.some.injEq, Prod.mk.injEq] at h; exact h.1 ▸ hI
      case h_1 a d =>
        split at h
        · simp only [Option.some.injEq, Prod.mk.injEq] at h; exact h.1 ▸ hI
        · simp only [Option.some.injEq, Prod.mk.injEq] at h
          obtain ⟨h1, -⟩ := h
          subst h1
          obtain ⟨jn, jlt, bn, blt, aiff, wacc, pacc, wlt, plt, au, ru⟩ := hI
          refine ⟨jn, jlt, ?_, ?_, aiff, wacc, pacc, wlt, plt, ?_, ru⟩
          · exact nodup_map_append_fresh bn blt rfl
          · intro b hb
            simp only [List.mem_append, List.mem_singleton] at hb
            rcases hb with hb | rfl
            · exact Nat.lt_succ_of_lt (blt b hb)
            · exact Nat.lt_succ_self _
          · intro b1 hb1 b2 hb2 hjid h1 h2
            simp only [List.mem_append, List.mem_singleton] at hb1 hb2
            rcases hb1 with hb1 | rfl
            · rcases hb2 with hb2 | rfl
              · exact au b1 hb1 b2 hb2 hjid h1 h2
              · simp at h2
            · simp at h1

theorem accept_bid_inv {s s' : DB} {uid bid_id : Nat} {m : String}
    (h : accept_bid s uid bid_id = some (s', m)) (hI : Inv s) : Inv s' := by
  unfold accept_bid at h
  split at h
  · exact absurd h (by simp)
  case h_2 bid hfb =>
    split at h
    · exact absurd h (by simp)
    case h_2 job hfj =>
      split at h
      · simp only [Option.some.injEq, Prod.mk.injEq] at h; exact h.1 ▸ hI
      · split at h
        · simp only [Option.some.injEq, Prod.mk.injEq] at h; exact h.1 ▸ hI
        case isFalse hopen =>
          simp only [Option.some.injEq, Prod.mk.injEq] at h
          obtain ⟨h1, -⟩ := h
          subst h1
          obtain ⟨jn, jlt, bn, blt, aiff, wacc, pacc, wlt, plt, au, ru⟩ := hI
          have hbmem : bid ∈ s.bids := getBid_mem hfb
          have hbid : bid.id = bid_id := getBid_id hfb
          have hjid : job.id = bid.job_id := getJob_id hfj
          have hinj := List.inj_on_of_nodup_map bn
          have hjfix : ∀ j : Job,
              (if j.id == job.id then
                ({ j with status := "in_progress",
                          accepted_bid_id := some bid_id } : Job)
               else j).id = j.id := by
            intro j; split <;> rfl
          have hbfix : ∀ b : Bid,
              (if b.job_id == job.id && b.id != bid_id then
                ({ b with status := "rejected" } : Bid)
               else if b.id == bid_id then
                ({ b with status := "accepted" } : Bid)
               else b).id = b.id := by
            intro b; split
            · rfl
            · split <;> rfl
          have hchar : ∀ b : Bid,
              (b.id = bid_id ∧
                (if b.job_id == job.id && b.id != bid_id then
                  ({ b with status := "rejected" } : Bid)
                 else if b.id == bid_id then
                  ({ b with status := "accepted" } : Bid)
                 else b) = { b with status := "accepted" }) ∨
              (b.id ≠ bid_id ∧ b.job_id = job.id ∧
                (if b.job_id == job.id && b.id != bid_id then
                  ({ b with status := "rejected" } : Bid)
                 else if b.id == bid_id then
                  ({ b with status := "accepted" } : Bid)
                 else b) = { b with status := "rejected" }) ∨
              (b.id ≠ bid_id ∧ b.job_id ≠ job.id ∧
                (if b.job_id == job.id && b.id != bid_id then
                  ({ b with status := "rejected" } : Bid)
                 else if b.id == bid_id then
                  ({ b with status := "accepted" } : Bid)
                 else b) = b) := by
            intro b
            by_cases h1 : b.id = bid_id
            · left
              refine ⟨h1, ?_⟩
              simp [h1]
            · by_cases h2 : b.job_id = job.id
              · right; left
                refine ⟨h1, h2, ?_⟩
                simp [h1, h2]
              · right; right
                refine ⟨h1, h2, ?_⟩
                simp [h1, h2]
          refine ⟨?_, ?_, ?_, ?_, ?_, ?_, ?_, wlt, plt, ?_, ru⟩
          · exact nodup_map_of_map_fix hjfix jn
          · intro j hj
            rw [List.mem_map] at hj
            obtain ⟨j0, hj0, rfl⟩ := hj
            rw [hjfix j0]
            exact jlt j0 hj0
          · exact nodup_map_of_map_fix hbfix bn
          · intro b hb
            rw [List.mem_map] at hb
            obtain ⟨b0, hb0, rfl⟩ := hb
            rw [hbfix b0]
            exact blt b0 hb0
          · intro j hj
            rw [List.mem_map] at hj
            obtain ⟨j0, hj0, rfl⟩ := hj
            split
            · simp [activeStatus]
            · exact aiff j0 hj0
          · intro w hw j hj hid
            rw [List.mem_map] at hj
            obtain ⟨j0, hj0, rfl⟩ := hj
            rw [hjfix j0] at hid
            split
            · simp
            · exact wacc w hw j0 hj0 hid
          · intro p hp j hj hid
            rw [List.mem_map] at hj
            obtain ⟨j0, hj0, rfl⟩ := hj
            rw [hjfix j0] at hid
            split
            · simp
            · exact pacc p hp j0 hj0 hid
          · intro b1 hb1 b2 hb2 hj12 hs1 hs2
            simp only [List.mem_map] at hb1 hb2
            obtain ⟨c1, hc1, hf1⟩ := hb1
            obtain ⟨c2, hc2, hf2⟩ := hb2
            have hf1a : (if c1.job_id == job.id && c1.id != bid_id then
                  ({ c1 with status := "rejected" } : Bid)
                else if c1.id == bid_id then
                  ({ c1 with status := "accepted" } : Bid)
                else c1) = b1 := hf1
            have hf2a : (if c2.job_id == job.id && c2.id != bid_id then
                  ({ c2 with status := "rejected" } : Bid)
                else if c2.id == bid_id then
                  ({ c2 with status := "accepted" } : Bid)
                else c2) = b2 := hf2
            rcases hchar c1 with ⟨e1, q1⟩ | ⟨e1, e1j, q1⟩ | ⟨e1, e1j, q1⟩ <;>
              rcases hchar c2 with ⟨e2, q2⟩ | ⟨e2, e2j, q2⟩ | ⟨e2, e2j, q2⟩ <;>
              rw [q1] at hf1a <;> rw [q2] at hf2a <;>
              subst hf1a <;> subst hf2a
            · have hcc : c1 = c2 := hinj hc1 hc2 (e1.trans e2.symm)
              rw [hcc]
            · simp at hs2
            · -- c1 is the accepted target, c2 untouched but accepted
              have hc1b : c1 = bid := hinj hc1 hbmem (e1.trans hbid.symm)
              have hjj : c2.job_id = job.id := by
                have hj : c1.job_id = c2.job_id := by simpa using hj12
                rw [← hj, hc1b, ← hjid]
              exact absurd hjj e2j
            · simp at hs1
            · simp at hs1
            · simp at hs1
            · have hc2b : c2 = bid := hinj hc2 hbmem (e2.trans hbid.symm)
              have hjj : c1.job_id = job.id := by
                have hj : c1.job_id = c2.job_id := by simpa using hj12
                rw [hj, hc2b, ← hjid]
              exact absurd hjj e1j
            · simp at hs2
            · exact au c1 hc1 c2 hc2 hj12 hs1 hs2

theorem submit_work_inv {s s' : DB} {uid jid : Nat} {description : String}
    {file : Option String} {now : Nat} {m : String}
    (h : submit_work s uid jid description file now = some (s', m))
    (hI : Inv s) : Inv s' := by
  simp only [submit_work] at h
  split at h
  · exact absurd h (by simp)
  case h_2 job hjob =>
    split at h
    · simp only [Option.some.injEq, Prod.mk.injEq] at h; exact h.1 ▸ hI
    case isFalse hst =>
      split at h
      · simp only [Option.some.injEq, Prod.mk.injEq] at h; exact h.1 ▸ hI
      case h_2 ab hab =>
        split at h
        · simp only [Option.some.injEq, Prod.mk.injEq] at h; exact h.1 ▸ hI
        · split at h
          · simp only [Option.some.injEq, Prod.mk.injEq] at h; exact h.1 ▸ hI
          case h_2 fname =>
            split at h
            · simp only [Option.some.injEq, Prod.mk.injEq] at h; exact h.1 ▸ hI
            · split at h
              · simp only [Option.some.injEq, Prod.mk.injEq] at h
                exact h.1 ▸ hI
              · split at h
                case h_1 w0 hw0 =>
                  simp only [Option.some.injEq, Prod.mk.injEq] at h
                  obtain ⟨h1, -⟩ := h
                  subst h1
                  obtain ⟨jn, jlt, bn, blt, aiff, wacc, pacc, wlt, plt, au, ru⟩ := hI
                  have hwfix : ∀ w : WorkSubmission,
                      (if w.job_id == jid then
                        ({ w with file_path := uploadName jid now fname,
                                  description := description } : WorkSubmission)
                       else w).job_id = w.job_id := by
                    intro w; split <;> rfl
                  refine ⟨jn, jlt, bn, blt, aiff, ?_, pacc, ?_, plt, au, ru⟩
                  · intro w hw j hj hid
                    rw [List.mem_map] at hw
                    obtain ⟨w1, hw1, rfl⟩ := hw
                    rw [hwfix w1] at hid
                    exact wacc w1 hw1 j hj hid
                  · intro w hw
                    rw [List.mem_map] at hw
                    obtain ⟨w1, hw1, rfl⟩ := hw
                    rw [hwfix w1]
                    exact wlt w1 hw1
                case h_2 hwn =>
                  simp only [Option.some.injEq, Prod.mk.injEq] at h
                  obtain ⟨h1, -⟩ := h
                  subst h1
                  obtain ⟨jn, jlt, bn, blt, aiff, wacc, pacc, wlt, plt, au, ru⟩ := hI
                  have hjmem : job ∈ s.jobs := getJob_mem hjob
                  have hjidv : job.id = jid := getJob_id hjob
                  have hjacc : job.accepted_bid_id ≠ none := by
                    obtain ⟨he, -⟩ := getBidOpt_eq hab
                    rw [he]
                    simp
                  have hinjj := List.inj_on_of_nodup_map jn
                  refine ⟨jn, jlt, bn, blt, aiff, ?_, pacc, ?_, plt, au, ru⟩
                  · intro w hw j hj hid
                    simp only [List.mem_append, List.mem_singleton] at hw
                    rcases hw with hw | rfl
                    · exact wacc w hw j hj hid
                    · have : j = job := hinjj hj hjmem (by rw [hid, hjidv])
                      rw [this]
                      exact hjacc
                  · intro w hw
                    simp only [List.mem_append, List.mem_singleton] at hw
                    rcases hw with hw | rfl
                    · exact wlt w hw
                    · exact hjidv ▸ jlt job hjmem

theorem reject_work_inv {s s' : DB} {uid jid : Nat} {m : String}
    (h : reject_work s uid jid = some (s', m)) (hI : Inv s) : Inv s' := by
  simp only [reject_work] at h
  split at h
  · exact absurd h (by simp)
  case h_2 job hjob =>
    split at h
    · simp only [Option.some.injEq, Prod.mk.injEq] at h; exact h.1 ▸ hI
    · split at h
      · simp only [Option.some.injEq, Prod.mk.injEq] at h; exact h.1 ▸ hI
      case h_2 w0 hw0 =>
        simp only [Option.some.injEq, Prod.mk.injEq] at h
        obtain ⟨h1, -⟩ := h
        subst h1
        obtain ⟨jn, jlt, bn, blt, aiff, wacc, pacc, wlt, plt, au, ru⟩ := hI
        have hw0m : w0 ∈ s.work_submissions := jobWork_mem hw0
        have hw0j : w0.job_id = jid := jobWork_jid hw0
        have hjfix : ∀ j : Job,
            (if j.id == jid then ({ j with status := "in_progress" } : Job)
             else j).id = j.id := by
          intro j; split <;> rfl
        have hjacc2 : ∀ j : Job,
            (if j.id == jid then ({ j with status := "in_progress" } : Job)
             else j).accepted_bid_id = j.accepted_bid_id := by
          intro j; split <;> rfl
        have hwfix : ∀ w : WorkSubmission,
            (if w.job_id == jid then ({ w with status := "rejected" } : WorkSubmission)
             else w).job_id = w.job_id := by
          intro w; split <;> rfl
        refine ⟨?_, ?_, bn, blt, ?_, ?_, ?_, ?_, plt, au, ru⟩
        · exact nodup_map_of_map_fix hjfix jn
        · intro j hj
          rw [List.mem_map] at hj
          obtain ⟨j0, hj0, rfl⟩ := hj
          rw [hjfix j0]
          exact jlt j0 hj0
        · intro j hj
          rw [List.mem_map] at hj
          obtain ⟨j0, hj0, rfl⟩ := hj
          split
          case isTrue hc =>
            have hj0id : j0.id = jid := by simpa using hc
            have : j0.accepted_bid_id ≠ none :=
              wacc w0 hw0m j0 hj0 (by rw [hj0id, hw0j])
            simpa [activeStatus] using this
          · exact aiff j0 hj0
        · intro w hw j hj hid
          rw [List.mem_map] at hw hj
          obtain ⟨w1, hw1, rfl⟩ := hw
          obtain ⟨j0, hj0, rfl⟩ := hj
          rw [hwfix w1, hjfix j0] at hid
          rw [hjacc2 j0]
          exact wacc w1 hw1 j0 hj0 hid
        · intro p hp j hj hid
          rw [List.mem_map] at hj
          obtain ⟨j0, hj0, rfl⟩ := hj
          rw [hjfix j0] at hid
          rw [hjacc2 j0]
          exact pacc p hp j0 hj0 hid
        · intro w hw
          rw [List.mem_map] at hw
          obtain ⟨w1, hw1, rfl⟩ := hw
          rw [hwfix w1]
          exact wlt w1 hw1

theorem approve_work_inv {s s' : DB} {uid jid : Nat} {m : String}
    (h : approve_work s uid jid = some (s', m)) (hI : Inv s) : Inv s' := by
  simp only [approve_work] at h
  split at h
  · exact absurd h (by simp)
  case h_2 job hjob =>
    split at h
    · simp only [Option.some.injEq, Prod.mk.injEq] at h; exact h.1 ▸ hI
    · split at h
      · simp only [Option.some.injEq, Prod.mk.injEq] at h; exact h.1 ▸ hI
      case h_2 w0 hw0 =>
        obtain ⟨jn, jlt, bn, blt, aiff, wacc, pacc, wlt, plt, au, ru⟩ := hI
        have hjmem : job ∈ s.jobs := getJob_mem hjob
        have hjidv : job.id = jid := getJob_id hjob
        have hw0m : w0 ∈ s.work_submissions := jobWork_mem hw0
        have hw0j : w0.job_id = jid := jobWork_jid hw0
        have hjfix : ∀ j : Job,
            (if j.id == jid then ({ j with status := "awaiting_payment" } : Job)
             else j).id = j.id := by
          intro j; split <;> rfl
        have hjacc2 : ∀ j : Job,
            (if j.id == jid then ({ j with status := "awaiting_payment" } : Job)
             else j).accepted_bid_id = j.accepted_bid_id := by
          intro j; split <;> rfl
        have hwfix : ∀ w : WorkSubmission,
            (if w.job_id == jid then ({ w with status := "approved" } : WorkSubmission)
             else w).job_id = w.job_id := by
          intro w; split <;> rfl
        have hjn2 : ((s.jobs.map fun j =>
            if j.id == jid then ({ j with status := "awaiting_payment" } : Job)
            else j).map Job.id).Nodup := nodup_map_of_map_fix hjfix jn
        have hjlt2 : ∀ j ∈ (s.jobs.map fun j =>
            if j.id == jid then ({ j with status := "awaiting_payment" } : Job)
            else j), j.id < s.next_job_id := by
          intro j hj
          rw [List.mem_map] at hj
          obtain ⟨j0, hj0, rfl⟩ := hj
          rw [hjfix j0]
          exact jlt j0 hj0
        have haiff2 : ∀ j ∈ (s.jobs.map fun j =>
            if j.id == jid then ({ j with status := "awaiting_payment" } : Job)
            else j), (j.accepted_bid_id ≠ none ↔ activeStatus j.status) := by
          intro j hj
          rw [List.mem_map] at hj
          obtain ⟨j0, hj0, rfl⟩ := hj
          split
          case isTrue hc =>
            have hj0id : j0.id = jid := by simpa using hc
            have : j0.accepted_bid_id ≠ none :=
              wacc w0 hw0m j0 hj0 (by rw [hj0id, hw0j])
            simpa [activeStatus] using this
          · exact aiff j0 hj0
        have hwacc2 : ∀ w ∈ (s.work_submissions.map fun w =>
            if w.job_id == jid then ({ w with status := "approved" } : WorkSubmission)
            else w), ∀ j ∈ (s.jobs.map fun j =>
            if j.id == jid then ({ j with status := "awaiting_payment" } : Job)
            else j), j.id = w.job_id → j.accepted_bid_id ≠ none := by
          intro w hw j hj hid
          rw [List.mem_map] at hw hj
          obtain ⟨w1, hw1, rfl⟩ := hw
          obtain ⟨j0, hj0, rfl⟩ := hj
          rw [hwfix w1, hjfix j0] at hid
          rw [hjacc2 j0]
          exact wacc w1 hw1 j0 hj0 hid
        have hwlt2 : ∀ w ∈ (s.work_submissions.map fun w =>
            if w.job_id == jid then ({ w with status := "approved" } : WorkSubmission)
            else w), w.job_id < s.next_job_id := by
          intro w hw
          rw [List.mem_map] at hw
          obtain ⟨w1, hw1, rfl⟩ := hw
          rw [hwfix w1]
          exact wlt w1 hw1
        split at h
        · -- no payment row yet: a fresh pending Payment is appended
          simp only [Option.some.injEq, Prod.mk.injEq] at h
          obtain ⟨h1, -⟩ := h
          subst h1
          refine ⟨hjn2, hjlt2, bn, blt, haiff2, hwacc2, ?_, hwlt2, ?_, au, ru⟩
          · intro p hp j hj hid
            simp only [List.mem_append, List.mem_singleton] at hp
            rw [List.mem_map] at hj
            obtain ⟨j0, hj0, rfl⟩ := hj
            rw [hjfix j0] at hid
            rw [hjacc2 j0]
            rcases hp with hp | rfl
            · exact pacc p hp j0 hj0 hid
            · exact wacc w0 hw0m j0 hj0 (by rw [hid, hjidv, hw0j])
          · intro p hp
            simp only [List.mem_append, List.mem_singleton] at hp
            rcases hp with hp | rfl
            · exact plt p hp
            · exact hjidv ▸ jlt job hjmem
        · -- existing payment row reset to pending
          simp only [Option.some.injEq, Prod.mk.injEq] at h
          obtain ⟨h1, -⟩ := h
          subst h1
          have hpfix : ∀ p : Payment,
              (if p.job_id == jid then ({ p with status := "pending" } : Payment)
               else p).job_id = p.job_id := by
            intro p; split <;> rfl
          refine ⟨hjn2, hjlt2, bn, blt, haiff2, hwacc2, ?_, hwlt2, ?_, au, ru⟩
          · intro p hp j hj hid
            rw [List.mem_map] at hp hj
            obtain ⟨p1, hp1, rfl⟩ := hp
            obtain ⟨j0, hj0, rfl⟩ := hj
            rw [hpfix p1] at hid
            rw [hjfix j0] at hid
            rw [hjacc2 j0]
            exact pacc p1 hp1 j0 hj0 hid
          · intro p hp
            rw [List.mem_map] at hp
            obtain ⟨p1, hp1, rfl⟩ := hp
            rw [hpfix p1]
            exact plt p1 hp1

theorem payment_page_inv {s s' : DB} {uid jid : Nat} {isPost : Bool}
    {m : String} (h : payment_page s uid jid isPost = some (s', m))
    (hI : Inv s) : Inv s' := by
  simp only [payment_page] at h
  split at h
  · exact absurd h (by simp)
  case h_2 job hjob =>
    split at h
    · simp only [Option.some.injEq, Prod.mk.injEq] at h; exact h.1 ▸ hI
    · split at h
      · simp only [Option.some.injEq, Prod.mk.injEq] at h; exact h.1 ▸ hI
      case h_2 abid habid =>
        split at h
        · simp only [Option.some.injEq, Prod.mk.injEq] at h; exact h.1 ▸ hI
        · split at h
          · exact absurd h (by simp)
          case h_2 ab hab =>
            split at h
            · split at h
              case h_1 hpn =>
                simp only [Option.some.injEq, Prod.mk.injEq] at h
                obtain ⟨h1, -⟩ := h
                subst h1
                obtain ⟨jn, jlt, bn, blt, aiff, wacc, pacc, wlt, plt, au, ru⟩ := hI
                have hjmem : job ∈ s.jobs := getJob_mem hjob
                have hjidv : job.id = jid := getJob_id hjob
                have hinjj := List.inj_on_of_nodup_map jn
                refine ⟨jn, jlt, bn, blt, aiff, wacc, ?_, wlt, ?_, au, ru⟩
                · intro p hp j hj hid
                  simp only [List.mem_append, List.mem_singleton] at hp
                  rcases hp with hp | rfl
                  · exact pacc p hp j hj hid
                  · have : j = job := hinjj hj hjmem hid
                    rw [this, habid]
                    simp
                · intro p hp
                  simp only [List.mem_append, List.mem_singleton] at hp
                  rcases hp with hp | rfl
                  · exact plt p hp
                  · exact jlt job hjmem
              case h_2 =>
                simp only [Option.some.injEq, Prod.mk.injEq] at h
                exact h.1 ▸ hI
            · simp only [Option.some.injEq, Prod.mk.injEq] at h
              exact h.1 ▸ hI

theorem mock_payment_inv {s s' : DB} {uid pid : Nat} {payment_method : String}
    {now : Nat} {m : String}
    (h : mock_payment s uid pid payment_method now = some (s', m))
    (hI : Inv s) : Inv s' := by
  simp only [mock_payment] at h
  split at h
  · exact absurd h (by simp)
  case h_2 payment hpay =>
    split at h
    · simp only [Option.some.injEq, Prod.mk.injEq] at h; exact h.1 ▸ hI
    · simp only [Option.some.injEq, Prod.mk.injEq] at h
      obtain ⟨h1, -⟩ := h
      subst h1
      obtain ⟨jn, jlt, bn, blt, aiff, wacc, pacc, wlt, plt, au, ru⟩ := hI
      have hpm : payment ∈ s.payments := getPayment_mem hpay
      have hjfix : ∀ j : Job,
          (if j.id == payment.job_id then ({ j with status := "completed" } : Job)
           else j).id = j.id := by
        intro j; split <;> rfl
      have hjacc2 : ∀ j : Job,
          (if j.id == payment.job_id then ({ j with status := "completed" } : Job)
           else j).accepted_bid_id = j.accepted_bid_id := by
        intro j; split <;> rfl
      have hpfix : ∀ p : Payment,
          (if p.id == pid then
            ({ p with status := "paid", paid_at := some now } : Payment)
           else p).job_id = p.job_id := by
        intro p; split <;> rfl
      refine ⟨?_, ?_, bn, blt, ?_, ?_, ?_, wlt, ?_, au, ru⟩
      · exact nodup_map_of_map_fix hjfix jn
      · intro j hj
        rw [List.mem_map] at hj
        obtain ⟨j0, hj0, rfl⟩ := hj
        rw [hjfix j0]
        exact jlt j0 hj0
      · intro j hj
        rw [List.mem_map] at hj
        obtain ⟨j0, hj0, rfl⟩ := hj
        split
        case isTrue hc =>
          have hj0id : j0.id = payment.job_id := by simpa using hc
          have : j0.accepted_bid_id ≠ none := pacc payment hpm j0 hj0 hj0id
          simpa [activeStatus] using this
        · exact aiff j0 hj0
      · intro w hw j hj hid
        rw [List.mem_map] at hj
        obtain ⟨j0, hj0, rfl⟩ := hj
        rw [hjfix j0] at hid
        rw [hjacc2 j0]
        exact wacc w hw j0 hj0 hid
      · intro p hp j hj hid
        rw [List.mem_map] at hp hj
        obtain ⟨p1, hp1, rfl⟩ := hp
        obtain ⟨j0, hj0, rfl⟩ := hj
        rw [hpfix p1] at hid
        rw [hjfix j0] at hid
        rw [hjacc2 j0]
        exact pacc p1 hp1 j0 hj0 hid
      · intro p hp
        rw [List.mem_map] at hp
        obtain ⟨p1, hp1, rfl⟩ := hp
        rw [hpfix p1]
        exact plt p1 hp1

theorem review_freelancer_inv {s s' : DB} {uid jid : Nat}
    {rating : Option Int} {comment : String} {m : String}
    (h : review_freelancer s uid jid rating comment = some (s', m))
    (hI : Inv s) : Inv s' := by
  simp only [review_freelancer] at h
  split at h
  · exact absurd h (by simp)
  case h_2 job hjob =>
    split at h
    · simp only [Option.some.injEq, Prod.mk.injEq] at h; exact h.1 ▸ hI
    · split at h
      · simp only [Option.some.injEq, Prod.mk.injEq] at h; exact h.1 ▸ hI
      case h_2 payment hpay =>
        split at h
        · simp only [Option.some.injEq, Prod.mk.injEq] at h; exact h.1 ▸ hI
        · split at h
          · simp only [Option.some.injEq, Prod.mk.injEq] at h; exact h.1 ▸ hI
          case isFalse hdup =>
            split at h
            · simp only [Option.some.injEq, Prod.mk.injEq] at h; exact h.1 ▸ hI
            case h_2 r =>
              split at h
              · simp only [Option.some.injEq, Prod.mk.injEq] at h
                exact h.1 ▸ hI
              · split at h
                · exact absurd h (by simp)
                case h_2 ab hab =>
                  split at h
                  · exact absurd h (by simp)
                  · simp only [Option.some.injEq, Prod.mk.injEq] at h
                    obtain ⟨h1, -⟩ := h
                    subst h1
                    obtain ⟨jn, jlt, bn, blt, aiff, wacc, pacc, wlt, plt,
                      au, ru⟩ := hI
                    have hnone : findReview s jid uid = none := by
                      rcases hf : findReview s jid uid with - | rv
                      · rfl
                      · rw [hf] at hdup; simp at hdup
                    rw [findReview, List.find?_eq_none] at hnone
                    refine ⟨jn, jlt, bn, blt, aiff, wacc, pacc, wlt, plt,
                      au, ?_⟩
                    rw [List.pairwise_append]
                    refine ⟨ru, by simp, ?_⟩
                    intro r1 hr1 r2 hr2
                    simp only [List.mem_singleton] at hr2
                    subst hr2
                    intro ⟨hj1, hc1⟩
                    exact hnone r1 hr1 (by simp [hj1, hc1])

theorem create_profile_inv {s : DB} {uid : Nat} (hI : Inv s) :
    Inv (create_profile s uid) := by
  unfold create_profile
  split
  · exact hI
  · obtain ⟨jn, jlt, bn, blt, aiff, wacc, pacc, wlt, plt, au, ru⟩ := hI
    exact ⟨jn, jlt, bn, blt, aiff, wacc, pacc, wlt, plt, au, ru⟩

/-! ### The transition system -/

/-- One completed mutating request.  Each constructor packages one of
the route handlers above together with arbitrary request data; a
request that aborts (`none`) performs no state change (the transaction
is rolled back, `app.py` line 1037), so only `some` results appear. -/
inductive Step : DB → DB → Prop where
  | postJob (uid : Nat) (title description : String) (budget : Option Rat)
      (category : String) (deadline : Option Nat) (now : Nat)
      (s s' : DB) (m : String)
      (h : post_job s uid title description budget category deadline now
            = some (s', m)) : Step s s'
  | placeBid (uid jid : Nat) (amount : Option Rat) (proposal : String)
      (delivery_days : Option Nat) (s s' : DB) (m : String)
      (h : place_bid s uid jid amount proposal delivery_days = some (s', m)) :
      Step s s'
  | acceptBid (uid bid_id : Nat) (s s' : DB) (m : String)
      (h : accept_bid s uid bid_id = some (s', m)) : Step s s'
  | submitWork (uid jid : Nat) (description : String) (file : Option String)
      (now : Nat) (s s' : DB) (m : String)
      (h : submit_work s uid jid description file now = some (s', m)) :
      Step s s'
  | approveWork (uid jid : Nat) (s s' : DB) (m : String)
      (h : approve_work s uid jid = some (s', m)) : Step s s'
  | rejectWork (uid jid : Nat) (s s' : DB) (m : String)
      (h : reject_work s uid jid = some (s', m)) : Step s s'
  | paymentPage (uid jid : Nat) (isPost : Bool) (s s' : DB) (m : String)
      (h : payment_page s uid jid isPost = some (s', m)) : Step s s'
  | mockPayment (uid pid : Nat) (payment_method : String) (now : Nat)
      (s s' : DB) (m : String)
      (h : mock_payment s uid pid payment_method now = some (s', m)) :
      Step s s'
  | reviewFreelancer (uid jid : Nat) (rating : Option Int) (comment : String)
      (s s' : DB) (m : String)
      (h : review_freelancer s uid jid rating comment = some (s', m)) :
      Step s s'
  | createProfile (uid : Nat) (s : DB) : Step s (create_profile s uid)

/-- States reachable from the empty store by the route operations. -/
inductive Reachable : DB → Prop where
  | init : Reachable DB.init
  | step {s s' : DB} : Reachable s → Step s s' → Reachable s'

theorem step_inv {s s' : DB} (hstep : Step s s') (hI : Inv s) : Inv s' := by
  cases hstep with
  | postJob _ _ _ _ _ _ _ _ _ _ h => exact post_job_inv h hI
  | placeBid _ _ _ _ _ _ _ _ h => exact place_bid_inv h hI
  | acceptBid _ _ _ _ _ h => exact accept_bid_inv h hI
  | submitWork _ _ _ _ _ _ _ _ h => exact submit_work_inv h hI
  | approveWork _ _ _ _ _ h => exact approve_work_inv h hI
  | rejectWork _ _ _ _ _ h => exact reject_work_inv h hI
  | paymentPage _ _ _ _ _ _ h => exact payment_page_inv h hI
  | mockPayment _ _ _ _ _ _ _ h => exact mock_payment_inv h hI
  | reviewFreelancer _ _ _ _ _ _ _ h => exact review_freelancer_inv h hI
  | createProfile uid => exact create_profile_inv hI

theorem inv_of_reachable {s : DB} (h : Reachable s) : Inv s := by
  induction h with
  | init => exact inv_init
  | step _ hstep ih => exact step_inv hstep ih

/-! ### Claim theorems -/

/-- Number of bids on job `jid` currently holding status `st`. -/
def countBidStatus (s : DB) (jid : Nat) (st : String) : Nat :=
  (s.bids.filter (fun b => b.job_id == jid && b.status == st)).length

/-- Job posted by client 1 (used by the concrete witnesses below). -/
def wexJob : Job := ⟨1, 1, "Site", "Build a site", 100, "web", 10, "open", none⟩

def wexS1 : DB := ⟨[wexJob], [], [], [], [], [], 2, 1, 1⟩

def wexS2 : DB :=
  ⟨[wexJob], [⟨1, 1, 2, 50, "p", 5, "pending"⟩], [], [], [], [], 2, 2, 1⟩

def wexS3 : DB :=
  ⟨[wexJob],
   [⟨1, 1, 2, 50, "p", 5, "pending"⟩, ⟨2, 1, 3, 60, "q", 7, "pending"⟩],
   [], [], [], [], 2, 3, 1⟩

/-- `wexS3` after client 1 accepts bid 2. -/
def wexS4 : DB :=
  ⟨[⟨1, 1, "Site", "Build a site", 100, "web", 10, "in_progress", some 2⟩],
   [⟨1, 1, 2, 50, "p", 5, "rejected"⟩, ⟨2, 1, 3, 60, "q", 7, "accepted"⟩],
   [], [], [], [], 2, 3, 1⟩

theorem reachable_wexS4 : Reachable wexS4 :=
  Reachable.step
    (Reachable.step
      (Reachable.step
        (Reachable.step Reachable.init
          (Step.postJob 1 "Site" "Build a site" (some 100) "web" (some 10) 0
            DB.init wexS1 "Job posted successfully!" (by decide)))
        (Step.placeBid 2 1 (some 50) "p" (some 5) wexS1 wexS2
          "Bid placed successfully!" (by decide)))
      (Step.placeBid 3 1 (some 60) "q" (some 7) wexS2 wexS3
        "Bid placed successfully!" (by decide)))
    (Step.acceptBid 1 2 wexS3 wexS4
      "Bid accepted! Job status is now in progress." (by decide))

/-- C2: in every state reachable by the route operations, a job has
`accepted_bid_id` set if and only if its status is one of
`in_progress`, `awaiting_payment`, `completed`. -/
theorem reachable_accepted_bid_iff_active_status {s : DB}
    (h : Reachable s) :
    ∀ j ∈ s.jobs, (j.accepted_bid_id ≠ none ↔
      (j.status = "in_progress" ∨ j.status = "awaiting_payment" ∨
        j.status = "completed")) :=
  (inv_of_reachable h).acc_iff

/-- Witness for C2 at a concrete reachable state: the job of `wexS4`
is `in_progress` with `accepted_bid_id = some 2`, and the equivalence
holds for it. -/
theorem reachable_accepted_bid_iff_active_status_witness :
    ((⟨1, 1, "Site", "Build a site", 100, "web", 10, "in_progress",
        some 2⟩ : Job).accepted_bid_id ≠ none ↔
      ((⟨1, 1, "Site", "Build a site", 100, "web", 10, "in_progress",
        some 2⟩ : Job).status = "in_progress" ∨
       (⟨1, 1, "Site", "Build a site", 100, "web", 10, "in_progress",
        some 2⟩ : Job).status = "awaiting_payment" ∨
       (⟨1, 1, "Site", "Build a site", 100, "web", 10, "in_progress",
        some 2⟩ : Job).status = "completed")) :=
  reachable_accepted_bid_iff_active_status reachable_wexS4
    ⟨1, 1, "Site", "Build a site", 100, "web", 10, "in_progress", some 2⟩
    (by decide)

/-- C4: in every reachable state at most one bid per job is accepted —
whenever a bid `B` on a job is accepted, every other bid on the same
job has a status different from `accepted`. -/
theorem reachable_at_most_one_accepted_bid {s : DB} (h : Reachable s) :
    ∀ B ∈ s.bids, B.status = "accepted" →
      ∀ b ∈ s.bids, b.job_id = B.job_id → b ≠ B → b.status ≠ "accepted" := by
  intro B hB hBacc b hb hjob hne hacc
  exact hne ((inv_of_reachable h).acc_unique b hb B hB hjob hacc hBacc)

/-- Witness for C4 at the concrete reachable state `wexS4`: bid 2 is
accepted, so the sibling bid 1 is not accepted. -/
theorem reachable_at_most_one_accepted_bid_witness :
    (⟨1, 1, 2, 50, "p", 5, "rejected"⟩ : Bid).status ≠ "accepted" :=
  reachable_at_most_one_accepted_bid reachable_wexS4
    ⟨2, 1, 3, 60, "q", 7, "accepted"⟩ (by decide) (by decide)
    ⟨1, 1, 2, 50, "p", 5, "rejected"⟩ (by decide) (by decide) (by decide)

/-- C1: accepting bid `bid_id` on an open job owned by the requester
marks the target bid `accepted`, every other bid on the job
`rejected`, and the job `in_progress` with `accepted_bid_id` set —
within the single transition (the other tables are untouched, and no
intermediate state exists: the handler is one atomic state update). -/
theorem accept_bid_accepts_target_rejects_rest
    {s : DB} {uid bid_id : Nat} {B : Bid} {J : Job}
    (hB : getBid s bid_id = some B)
    (hJ : getJob s B.job_id = some J)
    (hclient : J.client_id = uid)
    (hopen : J.status = "open") :
    ∃ s', accept_bid s uid bid_id =
        some (s', "Bid accepted! Job status is now in progress.") ∧
      (∀ j ∈ s'.jobs, j.id = J.id →
        j.status = "in_progress" ∧ j.accepted_bid_id = some bid_id) ∧
      (∀ b ∈ s'.bids, b.id = bid_id → b.status = "accepted") ∧
      (∀ b ∈ s'.bids, b.job_id = J.id → b.id ≠ bid_id →
        b.status = "rejected") ∧
      s'.work_submissions = s.work_submissions ∧
      s'.payments = s.payments ∧
      s'.reviews = s.reviews ∧
      s'.profiles = s.profiles := by
  have hjfix : ∀ j : Job,
      (if j.id == J.id then
        ({ j with status := "in_progress",
                  accepted_bid_id := some bid_id } : Job)
       else j).id = j.id := by
    intro j; split <;> rfl
  have hbfix : ∀ b : Bid,
      (if b.job_id == J.id && b.id != bid_id then
        ({ b with status := "rejected" } : Bid)
       else if b.id == bid_id then
        ({ b with status := "accepted" } : Bid)
       else b).id = b.id := by
    intro b; split
    · rfl
    · split <;> rfl
  have hbjfix : ∀ b : Bid,
      (if b.job_id == J.id && b.id != bid_id then
        ({ b with status := "rejected" } : Bid)
       else if b.id == bid_id then
        ({ b with status := "accepted" } : Bid)
       else b).job_id = b.job_id := by
    intro b; split
    · rfl
    · split <;> rfl
  simp only [accept_bid, hB, hJ]
  rw [if_neg (by simp [hclient]), if_neg (by simp [hopen])]
  refine ⟨_, rfl, ?_, ?_, ?_, rfl, rfl, rfl, rfl⟩
  · intro j hj hid
    rw [List.mem_map] at hj
    obtain ⟨j0, hj0, rfl⟩ := hj
    rw [hjfix j0] at hid
    simp [hid]
  · intro b hb hid
    rw [List.mem_map] at hb
    obtain ⟨b0, hb0, rfl⟩ := hb
    rw [hbfix b0] at hid
    simp [hid]
  · intro b hb hjid hne
    rw [List.mem_map] at hb
    obtain ⟨b0, hb0, rfl⟩ := hb
    rw [hbjfix b0] at hjid
    rw [hbfix b0] at hne
    simp [hjid, hne]

/-- Open job with three pending bids, for the C1 witness. -/
def wexThree : DB :=
  ⟨[wexJob],
   [⟨1, 1, 2, 50, "p", 5, "pending"⟩, ⟨2, 1, 3, 60, "q", 7, "pending"⟩,
    ⟨3, 1, 4, 70, "r", 9, "pending"⟩],
   [], [], [], [], 2, 4, 1⟩

/-- `wexThree` after client 1 accepts bid 2. -/
def wexThreeAfter : DB :=
  ⟨[⟨1, 1, "Site", "Build a site", 100, "web", 10, "in_progress", some 2⟩],
   [⟨1, 1, 2, 50, "p", 5, "rejected"⟩, ⟨2, 1, 3, 60, "q", 7, "accepted"⟩,
    ⟨3, 1, 4, 70, "r", 9, "rejected"⟩],
   [], [], [], [], 2, 4, 1⟩

/-- Witness for C1: accepting bid 2 on the open job with three pending
bids leaves exactly one accepted and two rejected bids. -/
theorem accept_bid_accepts_target_rejects_rest_witness :
    (∃ s', accept_bid wexThree 1 2 =
        some (s', "Bid accepted! Job status is now in progress.") ∧
      (∀ j ∈ s'.jobs, j.id = wexJob.id →
        j.status = "in_progress" ∧ j.accepted_bid_id = some 2) ∧
      (∀ b ∈ s'.bids, b.id = 2 → b.status = "accepted") ∧
      (∀ b ∈ s'.bids, b.job_id = wexJob.id → b.id ≠ 2 →
        b.status = "rejected") ∧
      s'.work_submissions = wexThree.work_submissions ∧
      s'.payments = wexThree.payments ∧
      s'.reviews = wexThree.reviews ∧
      s'.profiles = wexThree.profiles) ∧
    accept_bid wexThree 1 2 =
      some (wexThreeAfter, "Bid accepted! Job status is now in progress.") ∧
    countBidStatus wexThreeAfter 1 "accepted" = 1 ∧
    countBidStatus wexThreeAfter 1 "rejected" = 2 :=
  ⟨accept_bid_accepts_target_rejects_rest
      (B := ⟨2, 1, 3, 60, "q", 7, "pending"⟩) (J := wexJob)
      (by decide) (by decide) (by decide) (by decide),
   by decide, by decide, by decide⟩

/-- C8: rejecting submitted work on an `in_progress` job owned by the
requester marks the submission `rejected` and the job stays
`in_progress` (it does not advance to `awaiting_payment`). -/
theorem reject_work_sets_rejected_keeps_in_progress
    {s : DB} {uid jid : Nat} {J : Job} {W : WorkSubmission}
    (hJ : getJob s jid = some J) (hc : J.client_id = uid)
    (hst : J.status = "in_progress")
    (hW : jobWork s jid = some W) (hWs : W.status = "submitted") :
    ∃ s', reject_work s uid jid =
        some (s', "Work rejected. Freelancer notified to resubmit.") ∧
      (∀ w ∈ s'.work_submissions, w.job_id = jid → w.status = "rejected") ∧
      (∀ j ∈ s'.jobs, j.id = jid → j.status = "in_progress") ∧
      s'.bids = s.bids ∧ s'.payments = s.payments ∧
      s'.reviews = s.reviews := by
  have hwfix : ∀ w : WorkSubmission,
      (if w.job_id == jid then ({ w with status := "rejected" } : WorkSubmission)
       else w).job_id = w.job_id := by
    intro w; split <;> rfl
  have hjfix : ∀ j : Job,
      (if j.id == jid then ({ j with status := "in_progress" } : Job)
       else j).id = j.id := by
    intro j; split <;> rfl
  simp only [reject_work, hJ, hW]
  rw [if_neg (by simp [hc])]
  refine ⟨_, rfl, ?_, ?_, rfl, rfl, rfl⟩
  · intro w hw hid
    rw [List.mem_map] at hw
    obtain ⟨w1, hw1, rfl⟩ := hw
    rw [hwfix w1] at hid
    simp [hid]
  · intro j hj hid
    rw [List.mem_map] at hj
    obtain ⟨j0, hj0, rfl⟩ := hj
    rw [hjfix j0] at hid
    simp [hid]

/-- Job 1 `in_progress` with accepted bid 2 and a submitted work row
(used by the C8 witness). -/
def wexSubmitted : DB :=
  ⟨[⟨1, 1, "Site", "Build a site", 100, "web", 10, "in_progress", some 2⟩],
   [⟨2, 1, 3, 60, "q", 7, "accepted"⟩],
   [⟨1, "1_77_a.pdf", "done", "submitted"⟩], [], [], [], 2, 3, 1⟩

/-- Witness for C8 at a concrete state. -/
theorem reject_work_sets_rejected_keeps_in_progress_witness :
    ∃ s', reject_work wexSubmitted 1 1 =
        some (s', "Work rejected. Freelancer notified to resubmit.") ∧
      (∀ w ∈ s'.work_submissions, w.job_id = 1 → w.status = "rejected") ∧
      (∀ j ∈ s'.jobs, j.id = 1 → j.status = "in_progress") ∧
      s'.bids = wexSubmitted.bids ∧
      s'.payments = wexSubmitted.payments ∧
      s'.reviews = wexSubmitted.reviews :=
  reject_work_sets_rejected_keeps_in_progress
    (J := ⟨1, 1, "Site", "Build a site", 100, "web", 10, "in_progress",
      some 2⟩)
    (W := ⟨1, "1_77_a.pdf", "done", "submitted"⟩)
    (by decide) (by decide) (by decide) (by decide) (by decide)

/-- C9: opening the payment page (GET or POST) for a job with no
accepted bid redirects with a message and leaves the state — in
particular the payment table — untouched. -/
theorem payment_page_no_accepted_bid_no_write
    {s : DB} {uid jid : Nat} {isPost : Bool} {J : Job}
    (hJ : getJob s jid = some J) (hc : J.client_id = uid)
    (hn : J.accepted_bid_id = none) :
    payment_page s uid jid isPost =
      some (s, "This job does not have an accepted bid.") := by
  simp only [payment_page, hJ]
  rw [if_neg (by simp [hc]), hn]

/-- Open job owned by client 1 with no accepted bid (C9 witness). -/
def wexNoAccept : DB := ⟨[wexJob], [], [], [], [], [], 2, 1, 1⟩

/-- Witness for C9, on the POST variant. -/
theorem payment_page_no_accepted_bid_no_write_witness :
    payment_page wexNoAccept 1 1 true =
      some (wexNoAccept, "This job does not have an accepted bid.") :=
  payment_page_no_accepted_bid_no_write (J := wexJob)
    (by decide) (by decide) (by decide)

/-- C10: the mock-payment POST by the paying client unconditionally
marks the payment `paid` with a fresh `paid_at` and its job
`completed`, with no guard on the current payment or job status. -/
theorem mock_payment_unconditional_paid
    {s : DB} {uid pid : Nat} {method : String} {now : Nat} {P : Payment}
    (hP : getPayment s pid = some P) (hc : P.client_id = uid) :
    ∃ s' msg, mock_payment s uid pid method now = some (s', msg) ∧
      (∀ p ∈ s'.payments, p.id = pid →
        p.status = "paid" ∧ p.paid_at = some now) ∧
      (∀ j ∈ s'.jobs, j.id = P.job_id → j.status = "completed") ∧
      s'.bids = s.bids ∧ s'.work_submissions = s.work_submissions ∧
      s'.reviews = s.reviews ∧ s'.profiles = s.profiles := by
  have hpfix : ∀ p : Payment,
      (if p.id == pid then
        ({ p with status := "paid", paid_at := some now } : Payment)
       else p).id = p.id := by
    intro p; split <;> rfl
  have hjfix : ∀ j : Job,
      (if j.id == P.job_id then ({ j with status := "completed" } : Job)
       else j).id = j.id := by
    intro j; split <;> rfl
  simp only [mock_payment, hP]
  rw [if_neg (by simp [hc])]
  refine ⟨_, _, rfl, ?_, ?_, rfl, rfl, rfl, rfl⟩
  · intro p hp hid
    rw [List.mem_map] at hp
    obtain ⟨p1, hp1, rfl⟩ := hp
    rw [hpfix p1] at hid
    simp [hid]
  · intro j hj hid
    rw [List.mem_map] at hj
    obtain ⟨j0, hj0, rfl⟩ := hj
    rw [hjfix j0] at hid
    simp [hid]

/-- Completed job whose payment is already `paid` at time 5 (C10
witness: paying again succeeds and refreshes `paid_at`). -/
def wexPaid : DB :=
  ⟨[⟨1, 1, "Site", "Build a site", 100, "web", 10, "completed", some 2⟩],
   [⟨2, 1, 3, 60, "q", 7, "accepted"⟩], [],
   [⟨1, 1, 1, some 3, 60, "paid", some 5⟩], [], [], 2, 3, 2⟩

/-- `wexPaid` after re-running the mock payment at time 9. -/
def wexRePaid : DB :=
  ⟨[⟨1, 1, "Site", "Build a site", 100, "web", 10, "completed", some 2⟩],
   [⟨2, 1, 3, 60, "q", 7, "accepted"⟩], [],
   [⟨1, 1, 1, some 3, 60, "paid", some 9⟩], [], [], 2, 3, 2⟩

/-- Witness for C10: an already-`paid` payment is re-paid and its
`paid_at` moves from 5 to 9. -/
theorem mock_payment_unconditional_paid_witness :
    (∃ s' msg, mock_payment wexPaid 1 1 "card" 9 = some (s', msg) ∧
      (∀ p ∈ s'.payments, p.id = 1 →
        p.status = "paid" ∧ p.paid_at = some 9) ∧
      (∀ j ∈ s'.jobs, j.id = 1 → j.status = "completed") ∧
      s'.bids = wexPaid.bids ∧
      s'.work_submissions = wexPaid.work_submissions ∧
      s'.reviews = wexPaid.reviews ∧ s'.profiles = wexPaid.profiles) ∧
    mock_payment wexPaid 1 1 "card" 9 =
      some (wexRePaid, "Payment successful via Card!") :=
  ⟨mock_payment_unconditional_paid
      (P := ⟨1, 1, 1, some 3, 60, "paid", some 5⟩) (by decide) (by decide),
   by decide⟩

/-- C6: a review submission whose rating is missing or outside `[1,5]`
never changes the state — either the request aborts before any commit
or it returns with a flash message and the exact same store (so no
review row is created and no profile aggregate moves). -/
theorem review_invalid_rating_no_write
    (s : DB) (uid jid : Nat) (rating : Option Int) (comment : String)
    (hbad : rating = none ∨ ∃ r, rating = some r ∧ (r < 1 ∨ 5 < r)) :
    review_freelancer s uid jid rating comment = none ∨
      ∃ msg, review_freelancer s uid jid rating comment = some (s, msg) := by
  simp only [review_freelancer]
  split
  · exact Or.inl rfl
  case h_2 job hjob =>
    split
    · exact Or.inr ⟨_, rfl⟩
    · split
      · exact Or.inr ⟨_, rfl⟩
      case h_2 payment hpay =>
        split
        · exact Or.inr ⟨_, rfl⟩
        · split
          · exact Or.inr ⟨_, rfl⟩
          · split
            · exact Or.inr ⟨_, rfl⟩
            case h_2 r =>
              rcases hbad with hb | ⟨r0, hr0, hout⟩
              · exact absurd hb (by simp)
              · have hrr : r = r0 := by
                  injection hr0
                subst hrr
                rw [if_pos (by rcases hout with ho | ho <;> simp [ho])]
                exact Or.inr ⟨_, rfl⟩

/-- Completed, paid, not-yet-reviewed job owned by client 1 with
accepted bid by freelancer 3 (C6 witness: rating 6 is rejected there
with no state change). -/
def wexReviewable : DB :=
  ⟨[⟨1, 1, "Site", "Build a site", 100, "web", 10, "completed", some 2⟩],
   [⟨2, 1, 3, 60, "q", 7, "accepted"⟩], [],
   [⟨1, 1, 1, some 3, 60, "paid", some 5⟩], [], [⟨3, 0, 0⟩], 2, 3, 2⟩

/-- Witness for C6: submitting rating 6 leaves the store untouched. -/
theorem review_invalid_rating_no_write_witness :
    review_freelancer wexReviewable 1 1 (some 6) "great" = none ∨
      ∃ msg, review_freelancer wexReviewable 1 1 (some 6) "great" =
        some (wexReviewable, msg) :=
  review_invalid_rating_no_write wexReviewable 1 1 (some 6) "great"
    (Or.inr ⟨6, rfl, by decide⟩)

/-- C7, three parts: a review row is only ever created when the job
already has a `paid` payment; a second review attempt by the job's
client is turned away with a flash message and the identical state;
and in every reachable state reviews are unique per (job, client)
pair. -/
theorem review_payment_gate_and_uniqueness :
    (∀ (s : DB) (uid jid : Nat) (rating : Option Int) (comment : String)
        (s' : DB) (msg : String),
      review_freelancer s uid jid rating comment = some (s', msg) →
      s'.reviews ≠ s.reviews →
      ∃ p ∈ s.payments, p.job_id = jid ∧ p.status = "paid") ∧
    (∀ (s : DB) (uid jid : Nat) (rating : Option Int) (comment : String)
        (J : Job) (P : Payment),
      getJob s jid = some J → J.client_id = uid →
      jobPayment s jid = some P → P.status = "paid" →
      (∃ rv ∈ s.reviews, rv.job_id = jid ∧ rv.client_id = uid) →
      review_freelancer s uid jid rating comment =
        some (s, "You have already reviewed this job.")) ∧
    (∀ s : DB, Reachable s →
      List.Pairwise (fun r1 r2 =>
        ¬(r1.job_id = r2.job_id ∧ r1.client_id = r2.client_id))
        s.reviews) := by
  refine ⟨?_, ?_, ?_⟩
  · intro s uid jid rating comment s' msg h hne
    simp only [review_freelancer] at h
    split at h
    · exact absurd h (by simp)
    case h_2 job hjob =>
      split at h
      · simp only [Option.some.injEq, Prod.mk.injEq] at h
        cases h.1
        exact absurd rfl hne
      · split at h
        · simp only [Option.some.injEq, Prod.mk.injEq] at h
          cases h.1
          exact absurd rfl hne
        case h_2 payment hpay =>
          split at h
          · simp only [Option.some.injEq, Prod.mk.injEq] at h
            cases h.1
            exact absurd rfl hne
          case isFalse hpaid =>
            have hps : payment.status = "paid" := by
              simpa using hpaid
            split at h
            · simp only [Option.some.injEq, Prod.mk.injEq] at h
              cases h.1
              exact absurd rfl hne
            · split at h
              · simp only [Option.some.injEq, Prod.mk.injEq] at h
                cases h.1
                exact absurd rfl hne
              · split at h
                · simp only [Option.some.injEq, Prod.mk.injEq] at h
                  cases h.1
                  exact absurd rfl hne
                · split at h
                  · exact absurd h (by simp)
                  · split at h
                    · exact absurd h (by simp)
                    · exact ⟨payment, jobPayment_mem hpay,
                        jobPayment_jid hpay, hps⟩
  · intro s uid jid rating comment J P hJ hc hP hps hex
    simp only [review_freelancer, hJ, hP]
    rw [if_neg (by simp [hc]), if_neg (by simp [hps])]
    have hsome : (findReview s jid uid).isSome = true := by
      rcases hf : findReview s jid uid with - | rv
      · exfalso
        rw [findReview, List.find?_eq_none] at hf
        obtain ⟨rv, hrv, hj2, hc2⟩ := hex
        exact hf rv hrv (by simp [hj2, hc2])
      · rfl
    rw [if_pos hsome]
  · intro s hreach
    exact (inv_of_reachable hreach).reviews_unique

/-- `wexReviewable` with the review by client 1 already recorded (C7
witness). -/
def wexReviewed : DB :=
  ⟨[⟨1, 1, "Site", "Build a site", 100, "web", 10, "completed", some 2⟩],
   [⟨2, 1, 3, 60, "q", 7, "accepted"⟩], [],
   [⟨1, 1, 1, some 3, 60, "paid", some 5⟩],
   [⟨1, 1, 3, 4, "good"⟩], [⟨3, 4, 2⟩], 2, 3, 2⟩

/-- Witness for C7: the second review attempt by client 1 on job 1 is
rejected with the duplicate-review flash and the identical state. -/
theorem review_payment_gate_and_uniqueness_witness :
    review_freelancer wexReviewed 1 1 (some 5) "again" =
      some (wexReviewed, "You have already reviewed this job.") :=
  review_payment_gate_and_uniqueness.2.1 wexReviewed 1 1 (some 5) "again"
    ⟨1, 1, "Site", "Build a site", 100, "web", 10, "completed", some 2⟩
    ⟨1, 1, 1, some 3, 60, "paid", some 5⟩
    (by decide) (by decide) (by decide) (by decide)
    ⟨⟨1, 1, 3, 4, "good"⟩, by decide, by decide, by decide⟩

/-- C5 (amended): for an `in_progress` job whose accepted bid belongs
to the requester, submitting valid work creates the job's
`WorkSubmission` with status `submitted` when absent; when one already
exists only `file_path` and `description` are overwritten in place and
its `status` column is left unchanged (so a previously `rejected`
submission stays `rejected`). -/
theorem submit_work_create_or_update
    {s : DB} {uid jid : Nat} {description fname : String} {now : Nat}
    {J : Job} {B : Bid}
    (hJ : getJob s jid = some J) (hst : J.status = "in_progress")
    (hab : getBidOpt s J.accepted_bid_id = some B)
    (hfr : B.freelancer_id = uid)
    (hfn : fname ≠ "") (hall : allowed_file fname = true) :
    ∃ s', submit_work s uid jid description (some fname) now =
        some (s', "Work submitted successfully!") ∧
      s'.jobs = s.jobs ∧ s'.bids = s.bids ∧ s'.payments = s.payments ∧
      s'.reviews = s.reviews ∧
      (jobWork s jid = none →
        s'.work_submissions = s.work_submissions ++
          [⟨jid, uploadName jid now fname, description, "submitted"⟩]) ∧
      (∀ W, jobWork s jid = some W →
        s'.work_submissions = s.work_submissions.map (fun w =>
          if w.job_id == jid then
            { w with file_path := uploadName jid now fname,
                     description := description }
          else w)) := by
  simp only [submit_work, hJ, hab]
  rw [if_neg (by simp [hst]), if_neg (by simp [hfr]), if_neg hfn,
    if_neg (by simp [hall])]
  cases hjw : jobWork s jid with
  | some W0 =>
    simp only [hjw]
    refine ⟨_, rfl, rfl, rfl, rfl, rfl, ?_, ?_⟩
    · intro hn
      exact absurd hn (by simp)
    · intro W hW
      rfl
  | none =>
    simp only [hjw]
    refine ⟨_, rfl, rfl, rfl, rfl, rfl, ?_, ?_⟩
    · intro hn
      rfl
    · intro W hW
      exact absurd hW (by simp)

/-- `in_progress` job whose submission was rejected by the client
(C5 counterexample and witness). -/
def wexRejectedWork : DB :=
  ⟨[⟨1, 1, "Site", "Build a site", 100, "web", 10, "in_progress", some 2⟩],
   [⟨2, 1, 3, 60, "q", 7, "accepted"⟩],
   [⟨1, "1_50_a.pdf", "v1", "rejected"⟩], [], [], [], 2, 3, 1⟩

/-- `wexRejectedWork` after freelancer 3 resubmits at time 77: the file
and description change but the status stays `rejected`. -/
def wexResubmitted : DB :=
  ⟨[⟨1, 1, "Site", "Build a site", 100, "web", 10, "in_progress", some 2⟩],
   [⟨2, 1, 3, 60, "q", 7, "accepted"⟩],
   [⟨1, "1_77_b.pdf", "v2", "rejected"⟩], [], [], [], 2, 3, 1⟩

/-- Counterexample to C5 as stated: resubmitting over a `rejected`
submission leaves the resulting `WorkSubmission` with status
`rejected`, not `submitted`. -/
theorem submit_work_resubmission_keeps_rejected_status :
    submit_work wexRejectedWork 3 1 "v2" (some "b.pdf") 77 =
      some (wexResubmitted, "Work submitted successfully!") ∧
    (jobWork wexResubmitted 1).map WorkSubmission.status =
      some "rejected" ∧
    "rejected" ≠ "submitted" :=
  ⟨by decide, by decide, by decide⟩

/-- Witness for the amended C5, exercising the update-in-place case on
`wexRejectedWork`. -/
theorem submit_work_create_or_update_witness :
    ∃ s', submit_work wexRejectedWork 3 1 "v2" (some "b.pdf") 77 =
        some (s', "Work submitted successfully!") ∧
      s'.jobs = wexRejectedWork.jobs ∧ s'.bids = wexRejectedWork.bids ∧
      s'.payments = wexRejectedWork.payments ∧
      s'.reviews = wexRejectedWork.reviews ∧
      (jobWork wexRejectedWork 1 = none →
        s'.work_submissions = wexRejectedWork.work_submissions ++
          [⟨1, uploadName 1 77 "b.pdf", "v2", "submitted"⟩]) ∧
      (∀ W, jobWork wexRejectedWork 1 = some W →
        s'.work_submissions = wexRejectedWork.work_submissions.map (fun w =>
          if w.job_id == 1 then
            { w with file_path := uploadName 1 77 "b.pdf",
                     description := "v2" }
          else w)) :=
  submit_work_create_or_update
    (J := ⟨1, 1, "Site", "Build a site", 100, "web", 10, "in_progress",
      some 2⟩)
    (B := ⟨2, 1, 3, 60, "q", 7, "accepted"⟩)
    (by decide) (by decide) (by decide) (by decide) (by decide) (by decide)

/-- Two completed, paid, unreviewed jobs of client 1, both delivered by
freelancer 3 whose profile starts at 0 stars / 0 reviews (C3 input). -/
def wexTwoJobs : DB :=
  ⟨[⟨1, 1, "Site", "Build a site", 100, "web", 10, "completed", some 2⟩,
    ⟨2, 1, "App", "Build an app", 200, "mobile", 20, "completed", some 3⟩],
   [⟨2, 1, 3, 60, "q", 7, "accepted"⟩, ⟨3, 2, 3, 80, "t", 9, "accepted"⟩],
   [],
   [⟨1, 1, 1, some 3, 60, "paid", some 5⟩,
    ⟨2, 2, 1, some 3, 80, "paid", some 6⟩],
   [], [⟨3, 0, 0⟩], 3, 4, 3⟩

/-- C3: evaluating the review flow at the claimed inputs.  After one
rating-4 review the profile shows `avg_rating = 4` but
`total_reviews = 2` (the claim says 1); after the second rating-2
review it shows `avg_rating = 8/3` and `total_reviews = 3` (the claim
says 3.0 and 2).  The session-add before the aggregation query makes
the new rating count twice. -/
theorem review_rating_aggregation_double_counts :
    ∃ s1 s2 p1 p2,
      review_freelancer wexTwoJobs 1 1 (some 4) "good" =
        some (s1, "Review submitted successfully!") ∧
      s1.reviews = [⟨1, 1, 3, 4, "good"⟩] ∧
      profileOf s1 3 = some p1 ∧
      p1.avg_rating = 4 ∧ p1.total_reviews = 2 ∧
      review_freelancer s1 1 2 (some 2) "ok" =
        some (s2, "Review submitted successfully!") ∧
      s2.reviews = [⟨1, 1, 3, 4, "good"⟩, ⟨2, 1, 3, 2, "ok"⟩] ∧
      profileOf s2 3 = some p2 ∧
      p2.avg_rating = 8 / 3 ∧ p2.total_reviews = 3 ∧
      (2 : Nat) ≠ 1 ∧ (3 : Nat) ≠ 2 ∧ ((8 : Rat) / 3) ≠ 3 := by
  refine ⟨_, _, _, _, rfl, rfl, rfl, ?_, rfl, rfl, rfl, rfl, ?_, rfl,
    by decide, by decide, by norm_num⟩ <;> norm_num [wexTwoJobs]

end FreelanceHub
